import Mathlib

/-!
Shallow embedding of the parsed message-part model exposed by
`src/src/lua/lua_mimepart.c` (rspamd's Lua binding over mime parts and text
parts), together with proofs of the query contracts stated in the
specification.

Conventions of the embedding:
* A byte span (`rspamd_ftok_t` / the `start`,`len` pair pushed into a
  `rspamd_lua_text`) is a pair of a start address and a length, both `Nat`.
* A `GByteArray *` field is `Option Span`: the pointer may be null.  The C
  code dereferences such a pointer only where it is non-null by construction
  (non-empty parts); a null dereference is modelled by `gbaDeref` returning
  the zero span.
* A `GList *` / `GPtrArray *` is a `List` (`none`/null distinguished by
  `Option` where the code tests the pointer itself).
* Lua results: `nil` is `none`; `luaL_error` is `Except.error`; a Lua table
  built by successive `lua_settable` calls is an association list updated by
  `tableSet`, which overwrites an existing key exactly as Lua table
  assignment does.
* Machine integers: `guint` accumulation wraps modulo `2^32`; this is kept
  explicit in `lua_textpart_get_urls_length`.
-/

/-- A byte span: start address plus length (`rspamd_ftok_t`, or the
`start`/`len` pair of a `rspamd_lua_text`). -/
structure Span where
  start : Nat
  len : Nat
deriving Repr, DecidableEq

/-- Dereference of a `GByteArray *`.  The C code only dereferences these
pointers when the part is non-empty, where they are non-null by construction;
a null dereference is modelled as the zero span. -/
def gbaDeref : Option Span → Span
  | some s => s
  | none => ⟨0, 0⟩

/-- `enum rspamd_exception_type` of a `struct rspamd_process_exception`. -/
inductive ExceptionType where
  | newline
  | url
  | generic
deriving Repr, DecidableEq

/-- `struct rspamd_process_exception`: a flagged byte range of the text. -/
structure ProcessException where
  type : ExceptionType
  len : Nat
deriving Repr, DecidableEq

/-- `struct rspamd_mime_text_part`: the fields read by the binding layer. -/
structure TextPart where
  /-- `RSPAMD_MIME_TEXT_PART_FLAG_EMPTY` bit of `flags`. -/
  flag_empty : Bool
  /-- `RSPAMD_MIME_TEXT_PART_FLAG_UTF` bit of `flags`. -/
  flag_utf : Bool
  /-- `content`: utf8 content, tags stripped, newlines preserved. -/
  content : Option Span
  /-- `stripped_content`: utf8 content, tags and newlines stripped. -/
  stripped_content : Option Span
  /-- `utf_raw_content`: mime decoded, utf8 converted, tags retained. -/
  utf_raw_content : Option Span
  /-- `parsed`: mime decoded, not utf8 converted. -/
  parsed : Span
  /-- `raw`: not mime decoded nor utf8 converted. -/
  raw : Span
  nlines : Nat
  empty_lines : Nat
  spaces : Nat
  non_spaces : Nat
  double_spaces : Nat
  ascii_chars : Nat
  non_ascii_chars : Nat
  capital_letters : Nat
  numeric_characters : Nat
  /-- `exceptions`: `GList` of `rspamd_process_exception`. -/
  exceptions : List ProcessException
  /-- `language`: a C string pointer, null (`none`) or possibly empty. -/
  language : Option String
deriving Repr, DecidableEq

/-- Modelled from the spec: the external `IS_PART_EMPTY` macro tests the
`empty` flag of a text part. -/
def IS_PART_EMPTY (p : TextPart) : Bool :=
  p.flag_empty

/-- Modelled from the spec: the external `IS_PART_UTF` macro tests the
`utf8` flag of a text part. -/
def IS_PART_UTF (p : TextPart) : Bool :=
  p.flag_utf

/-- `lua_textpart_get_content`: the empty guard returns nil, then the
variant name (absent means the default view) selects the span, an
unrecognized name raises a Lua error. -/
def lua_textpart_get_content (p : TextPart) (ty : Option String) :
    Except String (Option Span) :=
  if IS_PART_EMPTY p then Except.ok none
  else
    match ty with
    | none => Except.ok (some (gbaDeref p.content))
    | some t =>
      if t = "content" then Except.ok (some (gbaDeref p.content))
      else if t = "content_oneline" then
        Except.ok (some (gbaDeref p.stripped_content))
      else if t = "raw_parsed" then Except.ok (some p.parsed)
      else if t = "raw_utf" then Except.ok (some (gbaDeref p.utf_raw_content))
      else if t = "raw" then Except.ok (some p.raw)
      else Except.error ("invalid content type: " ++ t)

/-- `lua_textpart_get_raw_content`. -/
def lua_textpart_get_raw_content (p : TextPart) : Option Span :=
  if IS_PART_EMPTY p then none
  else some p.raw

/-- `lua_textpart_get_content_oneline`. -/
def lua_textpart_get_content_oneline (p : TextPart) : Option Span :=
  if IS_PART_EMPTY p then none
  else some (gbaDeref p.stripped_content)

/-- `lua_textpart_get_length`: 0 for an empty part or a null `content`
pointer, the length of `content` otherwise. -/
def lua_textpart_get_length (p : TextPart) : Nat :=
  if IS_PART_EMPTY p ∨ p.content = none then 0
  else (gbaDeref p.content).len

/-- `lua_textpart_get_lines_count`. -/
def lua_textpart_get_lines_count (p : TextPart) : Nat :=
  if IS_PART_EMPTY p then 0
  else p.nlines

/-- The accumulation loop of `lua_textpart_get_urls_length`: `total` is a
`guint`, so each addition wraps modulo `2 ^ 32`. -/
def urlsLengthLoop : List ProcessException → Nat → Nat
  | [], total => total
  | ex :: rest, total =>
    urlsLengthLoop rest
      (if ex.type = ExceptionType.url then (total + ex.len) % 2 ^ 32 else total)

/-- `lua_textpart_get_urls_length`. -/
def lua_textpart_get_urls_length (p : TextPart) : Nat :=
  urlsLengthLoop p.exceptions 0

/-- `lua_textpart_is_utf`: false for empty parts, the utf flag otherwise. -/
def lua_textpart_is_utf (p : TextPart) : Bool :=
  if IS_PART_EMPTY p then false
  else IS_PART_UTF p

/-- `lua_textpart_get_language`: the language C string is pushed only when
non-null and its first byte is not NUL (a C string is empty exactly when its
first byte is NUL). -/
def lua_textpart_get_language (p : TextPart) : Option String :=
  match p.language with
  | some s => if s.length ≠ 0 then some s else none
  | none => none

/-- `lua_textpart_get_stats`: the stats table in the order the C code
populates it.  No field is guarded by the empty flag. -/
def lua_textpart_get_stats (p : TextPart) : List (String × Nat) :=
  [("lines", p.nlines),
   ("empty_lines", p.empty_lines),
   ("spaces", p.spaces),
   ("non_spaces", p.non_spaces),
   ("double_spaces", p.double_spaces),
   ("ascii_characters", p.ascii_chars),
   ("non_ascii_characters", p.non_ascii_chars),
   ("capital_letters", p.capital_letters),
   ("numeric_characters", p.numeric_characters)]

/-- Reading a key of a Lua table modelled as an association list. -/
def tableGet {α : Type} (t : List (String × α)) (k : String) : Option α :=
  match t.find? (fun kv => kv.1 = k) with
  | some kv => some kv.2
  | none => none

/-- Writing a key of a Lua table modelled as an association list:
`lua_settable` overwrites the previous value of an existing key. -/
def tableSet {α : Type} (t : List (String × α)) (k : String) (v : α) :
    List (String × α) :=
  if t.any (fun kv => kv.1 = k) then
    t.map (fun kv => if kv.1 = k then (k, v) else kv)
  else t ++ [(k, v)]

/-- `struct rspamd_content_type_param`: an attribute of the content type. -/
structure ContentTypeParam where
  name : String
  value : String
deriving Repr, DecidableEq

/-- `struct rspamd_content_type`: the fields read by the binding layer.
`type`, `subtype`, `charset` and `boundary` are `rspamd_ftok_t` views pushed
as Lua strings, modelled directly as strings (a zero-length token is the
empty string). -/
structure ContentType where
  type : String
  subtype : String
  charset : String
  boundary : String
  /-- `RSPAMD_CONTENT_TYPE_BROKEN` bit of `flags`. -/
  flag_broken : Bool
  /-- `RSPAMD_CONTENT_TYPE_MULTIPART` bit of `flags`. -/
  flag_multipart : Bool
  /-- `attrs`: null or a hash table of parameters, modelled as the list of
  entries in iteration order. -/
  attrs : Option (List ContentTypeParam)
deriving Repr, DecidableEq

/-- Dereference of a `struct rspamd_content_type *`.  The C code
dereferences `part->ct` unconditionally in `lua_mimepart_get_type_common`;
a null dereference is modelled as a default content type. -/
def ctDeref : Option ContentType → ContentType
  | some c => c
  | none => ⟨"", "", "", "", false, false, none⟩

/-- Modelled from the spec: the external `IS_CT_MULTIPART` macro holds when a
content type is present and carries the multipart flag. -/
def IS_CT_MULTIPART : Option ContentType → Bool
  | some c => c.flag_multipart
  | none => false

/-- `struct rspamd_mime_header`: the fields the traversal reads. -/
structure MimeHeader where
  name : String
  value : String
  decoded : String
deriving Repr, DecidableEq

/-- `struct rspamd_mime_part`: the fields read by the binding layer.
Children are modelled as opaque part references (the C code pushes the child
pointers); this keeps the node type non-recursive. -/
structure MimePart where
  ct : Option ContentType
  /-- `RSPAMD_MIME_PART_TEXT` bit of `flags`. -/
  flag_text : Bool
  parsed_data : Span
  raw_data : Span
  /-- `specific.mp.children`: null or a `GPtrArray` of child part
  pointers. -/
  children : Option (List Nat)
  /-- `headers_order`: null or the `GQueue` of headers in insertion
  order. -/
  headers_order : Option (List MimeHeader)
deriving Repr, DecidableEq

/-- `lua_mimepart_is_broken`: the broken flag of the content type, or true
when the part has no content type at all. -/
def lua_mimepart_is_broken (p : MimePart) : Bool :=
  match p.ct with
  | some ct => ct.flag_broken
  | none => true

/-- `lua_mimepart_get_children`: nil unless the content type is multipart
and the child array is non-null; otherwise the table of child
references. -/
def lua_mimepart_get_children (p : MimePart) : Option (List Nat) :=
  if ¬ IS_CT_MULTIPART p.ct ∨ p.children = none then none
  else some ((p.children).getD [])

/-- The attributes table built by `lua_mimepart_get_type_common` when `full`
is set: charset under key `"charset"`, then the boundary also under key
`"charset"`, then every attribute with a non-empty name. -/
def ctAttrsTable (ct : ContentType) : List (String × String) :=
  let t0 : List (String × String) := []
  let t1 := if ct.charset.length > 0 then tableSet t0 "charset" ct.charset else t0
  let t2 := if ct.boundary.length > 0 then tableSet t1 "charset" ct.boundary else t1
  (ct.attrs.getD []).foldl
    (fun t param =>
      if param.name.length > 0 then tableSet t param.name param.value else t)
    t2

/-- `lua_mimepart_get_type_full` (`lua_mimepart_get_type_common` with
`full = TRUE`): type, subtype, and the attributes table. -/
def lua_mimepart_get_type_full (p : MimePart) :
    String × String × List (String × String) :=
  let ct := ctDeref p.ct
  (ct.type, ct.subtype, ctAttrsTable ct)

/-- The traversal loop of `lua_mimepart_headers_foreach`, as the list of
headers passed to callback invocations, in order: a header whose name fails
the regexp filter is skipped, the loop stops right after the first
invocation whose result is true. -/
def foreachLoop (re : Option (String → Bool)) (cb : MimeHeader → Bool) :
    List MimeHeader → List MimeHeader
  | [] => []
  | h :: rest =>
    if (match re with | some f => !f h.name | none => false) then
      foreachLoop re cb rest
    else if cb h then [h]
    else h :: foreachLoop re cb rest

/-- `lua_mimepart_headers_foreach`, observed as the ordered list of headers
the callback is invoked on (the callback is pure here: a Lua callback that
evaluates without error, signalling stop by returning true). -/
def lua_mimepart_headers_foreach (p : MimePart) (re : Option (String → Bool))
    (cb : MimeHeader → Bool) : List MimeHeader :=
  match p.headers_order with
  | none => []
  | some hs => foreachLoop re cb hs

/-! ### Spec-side characterizations

Definitions below follow the specification's words, for comparison with the
embedded code. -/

/-- Spec-side: the urls length of a text part is the sum of the byte lengths
of exactly those exceptions whose kind is `url`. -/
def urlsLengthSpec (p : TextPart) : Nat :=
  ((p.exceptions.filter (fun e => e.type = ExceptionType.url)).map
    (fun e => e.len)).sum

/-- Recursive form of the url-kind length sum, for induction. -/
def urlsSum : List ProcessException → Nat
  | [] => 0
  | e :: rest =>
    (if e.type = ExceptionType.url then e.len else 0) + urlsSum rest

/-- Spec-side: a header traversal that walks the records in order and stops
right after the first record on which the callback signals stop: every
record strictly before the stopping one is visited (callback false), then at
most one more record is visited. -/
def foreachSpecVisits (hs : List MimeHeader) (cb : MimeHeader → Bool) :
    List MimeHeader :=
  hs.takeWhile (fun h => !cb h) ++ (hs.dropWhile (fun h => !cb h)).take 1

/-! ### Concrete fixtures -/

/-- A text part with the empty flag set but nonzero stored counters and live
span fields, as left behind by an analysis pass. -/
def tpEmpty : TextPart :=
  { flag_empty := true
    flag_utf := true
    content := some ⟨0, 5⟩
    stripped_content := some ⟨6, 2⟩
    utf_raw_content := some ⟨9, 7⟩
    parsed := ⟨20, 4⟩
    raw := ⟨30, 11⟩
    nlines := 3
    empty_lines := 1
    spaces := 2
    non_spaces := 8
    double_spaces := 0
    ascii_chars := 10
    non_ascii_chars := 0
    capital_letters := 1
    numeric_characters := 2
    exceptions := [⟨ExceptionType.url, 7⟩, ⟨ExceptionType.newline, 1⟩]
    language := some "en" }

/-- A non-empty text part whose tag-stripped content view and raw-utf view
are different spans, with a mixed exception list and an empty language
string. -/
def tpPlain : TextPart :=
  { flag_empty := false
    flag_utf := true
    content := some ⟨0, 5⟩
    stripped_content := some ⟨6, 2⟩
    utf_raw_content := some ⟨100, 7⟩
    parsed := ⟨20, 4⟩
    raw := ⟨30, 11⟩
    nlines := 2
    empty_lines := 0
    spaces := 1
    non_spaces := 4
    double_spaces := 0
    ascii_chars := 5
    non_ascii_chars := 0
    capital_letters := 0
    numeric_characters := 0
    exceptions :=
      [⟨ExceptionType.url, 7⟩, ⟨ExceptionType.newline, 1⟩,
       ⟨ExceptionType.url, 4⟩]
    language := some "" }

/-- A multipart content type. -/
def ctMulti : ContentType :=
  { type := "multipart"
    subtype := "mixed"
    charset := ""
    boundary := "bnd"
    flag_broken := false
    flag_multipart := true
    attrs := none }

/-- A plain (non-multipart) content type with charset, boundary and one
extra attribute. -/
def ctBound : ContentType :=
  { type := "text"
    subtype := "plain"
    charset := "utf-8"
    boundary := "XYZ"
    flag_broken := false
    flag_multipart := false
    attrs := some [⟨"name", "x"⟩] }

/-- A multipart mime part whose child array is present but empty. -/
def mpMultiEmpty : MimePart :=
  { ct := some ctMulti
    flag_text := false
    parsed_data := ⟨0, 3⟩
    raw_data := ⟨0, 5⟩
    children := some []
    headers_order := some [⟨"Subject", "raw", "dec"⟩] }

/-- A non-multipart mime part carrying a (stale) child array and no
headers. -/
def mpNonMulti : MimePart :=
  { ct := some ctBound
    flag_text := true
    parsed_data := ⟨0, 3⟩
    raw_data := ⟨0, 5⟩
    children := some [1, 2]
    headers_order := none }

/-- A mime part whose content type is the `ctBound` fixture. -/
def mpBound : MimePart :=
  { ct := some ctBound
    flag_text := true
    parsed_data := ⟨0, 3⟩
    raw_data := ⟨0, 5⟩
    children := none
    headers_order := some [] }

/-- A mime part with no content type at all. -/
def mpCtNone : MimePart :=
  { ct := none
    flag_text := false
    parsed_data := ⟨0, 0⟩
    raw_data := ⟨0, 0⟩
    children := none
    headers_order := none }

/-- A content type whose parameter list retains the `boundary` and `charset`
parameters themselves, as a parser that keeps all parameters produces for a
boundary-bearing part. -/
def ctBoundAttrs : ContentType :=
  { type := "multipart"
    subtype := "mixed"
    charset := "utf-8"
    boundary := "XYZ"
    flag_broken := false
    flag_multipart := true
    attrs := some [⟨"boundary", "XYZ"⟩, ⟨"charset", "utf-8"⟩] }

/-- A mime part whose content type is the `ctBoundAttrs` fixture. -/
def mpBoundAttrs : MimePart :=
  { ct := some ctBoundAttrs
    flag_text := false
    parsed_data := ⟨0, 3⟩
    raw_data := ⟨0, 5⟩
    children := some []
    headers_order := none }

deriving instance DecidableEq for Except

/-! ### Helper lemmas -/

/-- The `guint` accumulation of `lua_textpart_get_urls_length` never wraps
while the running total stays below `2 ^ 32`. -/
lemma urlsLengthLoop_eq (l : List ProcessException) :
    ∀ total : Nat, total + urlsSum l < 2 ^ 32 →
      urlsLengthLoop l total = total + urlsSum l := by
  induction l with
  | nil => intro total _; simp [urlsLengthLoop, urlsSum]
  | cons e rest ih =>
    intro total h
    by_cases he : e.type = ExceptionType.url
    · simp only [urlsLengthLoop, if_pos he]
      simp only [urlsSum, if_pos he] at h ⊢
      have hlt : total + e.len < 2 ^ 32 := by omega
      rw [Nat.mod_eq_of_lt hlt, ih (total + e.len) (by omega)]
      omega
    · simp only [urlsLengthLoop, if_neg he]
      simp only [urlsSum, if_neg he, Nat.zero_add] at h ⊢
      exact ih total h

/-- The recursive url-kind sum agrees with the filter-and-sum form. -/
lemma urlsSum_eq_filter_sum (l : List ProcessException) :
    urlsSum l =
      ((l.filter (fun e => e.type = ExceptionType.url)).map
        (fun e => e.len)).sum := by
  induction l with
  | nil => rfl
  | cons e rest ih =>
    by_cases he : e.type = ExceptionType.url <;>
      simp [urlsSum, List.filter_cons, he, ih]

/-- The traversal loop with no name filter visits exactly the prefix of
headers up to and including the first stopping one. -/
lemma foreachLoop_none_eq (cb : MimeHeader → Bool) (hs : List MimeHeader) :
    foreachLoop none cb hs = foreachSpecVisits hs cb := by
  induction hs with
  | nil => simp [foreachLoop, foreachSpecVisits]
  | cons h rest ih =>
    cases hcb : cb h <;>
      simp [foreachLoop, foreachSpecVisits, List.takeWhile_cons,
        List.dropWhile_cons, hcb, ih]

/-- The traversal loop with a name filter is the unfiltered loop over the
headers whose names pass the filter. -/
lemma foreachLoop_filter (f : String → Bool) (cb : MimeHeader → Bool)
    (hs : List MimeHeader) :
    foreachLoop (some f) cb hs =
      foreachLoop none cb (hs.filter (fun h => f h.name)) := by
  induction hs with
  | nil => simp [foreachLoop]
  | cons h rest ih =>
    cases hf : f h.name
    · simpa [foreachLoop, List.filter_cons, hf] using ih
    · cases hcb : cb h <;>
        simp [foreachLoop, List.filter_cons, hf, hcb, ih]

/-- The visited headers form a prefix of the traversed list. -/
lemma foreachSpecVisits_prefix (hs : List MimeHeader) (cb : MimeHeader → Bool) :
    foreachSpecVisits hs cb <+: hs := by
  refine ⟨(hs.dropWhile (fun h => !cb h)).drop 1, ?_⟩
  rw [foreachSpecVisits, List.append_assoc, List.take_append_drop,
    List.takeWhile_append_dropWhile]

/-- `List.find?` by key is unchanged by an overwrite of a different key. -/
lemma find_key_map_ne {α : Type} (k k' : String) (v : α) (h : k' ≠ k) :
    ∀ t : List (String × α),
      List.find? (fun kv => kv.1 = k)
          (t.map (fun kv => if kv.1 = k' then (k', v) else kv)) =
        List.find? (fun kv => kv.1 = k) t := by
  intro t
  induction t with
  | nil => rfl
  | cons kv rest ih =>
    by_cases hkv : kv.1 = k'
    · have hne : ¬ kv.1 = k := by rw [hkv]; exact h
      simp [List.find?, hkv, hne, h, ih]
    · by_cases hk : kv.1 = k <;>
        simp [List.find?, hkv, hk, ih, h, Ne.symm h]

/-- Reading a key of a Lua table is unchanged by a write to a different
key. -/
lemma tableGet_tableSet_ne {α : Type} (t : List (String × α)) (k k' : String)
    (v : α) (h : k' ≠ k) : tableGet (tableSet t k' v) k = tableGet t k := by
  unfold tableSet
  split
  · unfold tableGet
    rw [find_key_map_ne k k' v h t]
  · unfold tableGet
    rw [List.find?_append]
    have : List.find? (fun kv => kv.1 = k) [(k', v)] = none := by
      simp [List.find?, h]
    rw [this]
    cases List.find? (fun kv => kv.1 = k) t <;> rfl

/-- Folding the content-type attributes into the Lua table leaves every key
that no attribute is named after unchanged. -/
lemma ctAttrsFold_preserve (k : String) (params : List ContentTypeParam) :
    ∀ t : List (String × String),
      (∀ a ∈ params, a.name ≠ k) →
      tableGet
          (params.foldl
            (fun t param =>
              if param.name.length > 0 then tableSet t param.name param.value
              else t)
            t) k =
        tableGet t k := by
  induction params with
  | nil => intro t _; rfl
  | cons a rest ih =>
    intro t hall
    have ha : a.name ≠ k := hall a (List.mem_cons_self a rest)
    have hrest : ∀ b ∈ rest, b.name ≠ k := fun b hb =>
      hall b (List.mem_cons_of_mem a hb)
    by_cases hlen : a.name.length > 0
    · simp only [List.foldl_cons, if_pos hlen]
      rw [ih (tableSet t a.name a.value) hrest,
        tableGet_tableSet_ne t k a.name a.value ha]
    · simp only [List.foldl_cons, if_neg hlen]
      exact ih t hrest

/-- `List.find?` by key finds the overwritten entry once the key occurs in
the list. -/
lemma find_key_map_self {α : Type} (k : String) (v : α) :
    ∀ t : List (String × α), t.any (fun kv => kv.1 = k) = true →
      List.find? (fun kv => kv.1 = k)
          (t.map (fun kv => if kv.1 = k then (k, v) else kv)) =
        some (k, v) := by
  intro t
  induction t with
  | nil => intro h; simp at h
  | cons kv rest ih =>
    intro h
    by_cases hkv : kv.1 = k
    · simp [List.find?, hkv]
    · have hrest : rest.any (fun kv => kv.1 = k) = true := by
        simpa [List.any_cons, hkv] using h
      simp [List.find?, hkv, ih hrest]

/-- Reading a key right after writing it returns the written value. -/
lemma tableGet_tableSet_self {α : Type} (t : List (String × α)) (k : String)
    (v : α) : tableGet (tableSet t k v) k = some v := by
  unfold tableSet
  split
  · next h =>
    unfold tableGet
    rw [find_key_map_self k v t h]
  · next h =>
    unfold tableGet
    rw [List.find?_append]
    have hnone : List.find? (fun kv => kv.1 = k) t = none := by
      rw [List.find?_eq_none]
      intro x hx hpx
      exact h (List.any_eq_true.mpr ⟨x, hx, hpx⟩)
    rw [hnone]
    simp [List.find?]

/-- A key present in the Lua table stays present across any write. -/
lemma tableGet_tableSet_present {α : Type} (t : List (String × α))
    (k k' : String) (v : α) (h : tableGet t k ≠ none) :
    tableGet (tableSet t k' v) k ≠ none := by
  by_cases hk : k' = k
  · subst hk
    rw [tableGet_tableSet_self]
    exact fun hc => Option.noConfusion hc
  · rw [tableGet_tableSet_ne t k k' v hk]
    exact h

/-- After folding the content-type attributes into the Lua table, a key is
present whenever it was present before or some attribute with a non-empty
name is named after it. -/
lemma ctAttrsFold_present (k : String) (params : List ContentTypeParam) :
    ∀ t : List (String × String),
      (tableGet t k ≠ none ∨
        ∃ a ∈ params, a.name = k ∧ a.name.length > 0) →
      tableGet
          (params.foldl
            (fun t param =>
              if param.name.length > 0 then tableSet t param.name param.value
              else t)
            t) k ≠ none := by
  induction params with
  | nil =>
    intro t h
    rcases h with h | ⟨a, ha, _⟩
    · exact h
    · exact absurd ha (List.not_mem_nil a)
  | cons a rest ih =>
    intro t h
    by_cases hlen : a.name.length > 0
    · simp only [List.foldl_cons, if_pos hlen]
      apply ih
      rcases h with h | ⟨b, hb, hbk, hblen⟩
      · exact Or.inl (tableGet_tableSet_present t k a.name a.value h)
      · rcases List.mem_cons.mp hb with rfl | hbrest
        · refine Or.inl ?_
          rw [hbk, tableGet_tableSet_self]
          exact fun hc => Option.noConfusion hc
        · exact Or.inr ⟨b, hbrest, hbk, hblen⟩
    · simp only [List.foldl_cons, if_neg hlen]
      apply ih
      rcases h with h | ⟨b, hb, hbk, hblen⟩
      · exact Or.inl h
      · rcases List.mem_cons.mp hb with rfl | hbrest
        · exact absurd hblen hlen
        · exact Or.inr ⟨b, hbrest, hbk, hblen⟩

/-! ### Claims -/

/-- C3: for every mime part, `is_broken()` returns true exactly when the
content-type parse set the broken flag or the part has no content type at
all. -/
theorem mimepart_is_broken_iff (p : MimePart) :
    lua_mimepart_is_broken p = true ↔
      p.ct = none ∨ ∃ c, p.ct = some c ∧ c.flag_broken = true := by
  cases h : p.ct with
  | none => simp [lua_mimepart_is_broken, h]
  | some c => simp [lua_mimepart_is_broken, h]

/-- Witness for C3 at a part with no content type. -/
theorem mimepart_is_broken_iff_witness : lua_mimepart_is_broken mpCtNone = true :=
  (mimepart_is_broken_iff mpCtNone).mpr (Or.inl rfl)

/-- C9: for every text part flagged empty, `is_utf()` returns false, whatever
the utf8 flag holds. -/
theorem textpart_is_utf_empty_false (p : TextPart)
    (h : IS_PART_EMPTY p = true) : lua_textpart_is_utf p = false := by
  simp [lua_textpart_is_utf, h]

/-- Witness for C9 at an empty part whose utf8 flag is set. -/
theorem textpart_is_utf_empty_false_witness :
    lua_textpart_is_utf tpEmpty = false ∧ IS_PART_UTF tpEmpty = true :=
  ⟨textpart_is_utf_empty_false tpEmpty rfl, rfl⟩

/-- C10: for every text part, `get_language()` is absent both when no
language was stored and when the stored language string is empty, and any
present result is a non-empty string. -/
theorem textpart_get_language_nonempty (p : TextPart) :
    (p.language = none ∨ p.language = some "" →
        lua_textpart_get_language p = none) ∧
      ∀ s, lua_textpart_get_language p = some s → s ≠ "" := by
  constructor
  · intro h
    rcases h with h | h <;> simp [lua_textpart_get_language, h]
  · intro s hs hempty
    subst hempty
    cases hl : p.language with
    | none => simp [lua_textpart_get_language, hl] at hs
    | some t =>
      simp only [lua_textpart_get_language, hl] at hs
      by_cases ht : t.length ≠ 0
      · rw [if_pos ht] at hs
        have : t = "" := Option.some.inj hs
        subst this
        exact ht rfl
      · rw [if_neg ht] at hs
        exact Option.noConfusion hs

/-- Witness for C10 at a part whose stored language string is empty. -/
theorem textpart_get_language_nonempty_witness :
    lua_textpart_get_language tpPlain = none :=
  (textpart_get_language_nonempty tpPlain).1 (Or.inr rfl)

/-- C2 (amended): for every text part flagged empty, `get_content` returns
nil for every variant, `get_raw_content` and `get_content_oneline` return
nil, `get_length` and `get_lines_count` return 0, while the `lines` field of
`get_stats` is the stored `nlines` counter: `get_stats` does not consult the
empty flag. -/
theorem textpart_empty_accessors (p : TextPart)
    (h : IS_PART_EMPTY p = true) :
    (∀ ty, lua_textpart_get_content p ty = Except.ok none) ∧
      lua_textpart_get_raw_content p = none ∧
      lua_textpart_get_content_oneline p = none ∧
      lua_textpart_get_length p = 0 ∧
      lua_textpart_get_lines_count p = 0 ∧
      tableGet (lua_textpart_get_stats p) "lines" = some p.nlines := by
  refine ⟨fun ty => ?_, ?_, ?_, ?_, ?_, ?_⟩
  · simp [lua_textpart_get_content, h]
  · simp [lua_textpart_get_raw_content, h]
  · simp [lua_textpart_get_content_oneline, h]
  · simp [lua_textpart_get_length, h]
  · simp [lua_textpart_get_lines_count, h]
  · simp [lua_textpart_get_stats, tableGet, List.find?]

/-- Witness for C2 (amended) at the empty fixture part. -/
theorem textpart_empty_accessors_witness :
    lua_textpart_get_content tpEmpty (some "raw") = Except.ok none ∧
      lua_textpart_get_lines_count tpEmpty = 0 :=
  ⟨(textpart_empty_accessors tpEmpty rfl).1 (some "raw"),
    (textpart_empty_accessors tpEmpty rfl).2.2.2.2.1⟩

/-- Counterexample for C2 as stated: an empty part whose stored line counter
is 3 reports 3, not 0, in the `lines` field of `get_stats`. -/
theorem textpart_empty_stats_lines_counterexample :
    IS_PART_EMPTY tpEmpty = true ∧
      lua_textpart_get_lines_count tpEmpty = 0 ∧
      tableGet (lua_textpart_get_stats tpEmpty) "lines" ≠ some 0 := by
  refine ⟨rfl, rfl, ?_⟩
  decide

/-- C5: for every text part whose url-kind exception lengths sum below the
`guint` range, `get_urls_length()` equals the sum of the byte lengths of
exactly the url-kind exceptions, and is 0 when there is no url-kind
exception. -/
theorem textpart_get_urls_length_correct (p : TextPart)
    (h : urlsLengthSpec p < 2 ^ 32) :
    lua_textpart_get_urls_length p = urlsLengthSpec p ∧
      ((∀ e ∈ p.exceptions, e.type ≠ ExceptionType.url) →
        lua_textpart_get_urls_length p = 0) := by
  have hsum : urlsSum p.exceptions = urlsLengthSpec p := by
    rw [urlsLengthSpec, ← urlsSum_eq_filter_sum]
  have hmain : lua_textpart_get_urls_length p = urlsLengthSpec p := by
    rw [lua_textpart_get_urls_length, urlsLengthLoop_eq p.exceptions 0
      (by rw [hsum]; omega), hsum, Nat.zero_add]
  refine ⟨hmain, fun hnone => ?_⟩
  rw [hmain, urlsLengthSpec]
  have : p.exceptions.filter (fun e => e.type = ExceptionType.url) = [] := by
    rw [List.filter_eq_nil_iff]
    intro e he
    simp [hnone e he]
  rw [this]
  rfl

/-- Witness for C5 at a part with two url exceptions (7 and 4 bytes) and a
newline exception between them. -/
theorem textpart_get_urls_length_correct_witness :
    lua_textpart_get_urls_length tpPlain = urlsLengthSpec tpPlain :=
  (textpart_get_urls_length_correct tpPlain (by decide)).1

/-- C1 (amended): on a non-empty text part, `get_content` dispatches on
exactly the five variant names — `content` and the default return the
`content` view, `content_oneline` the `stripped_content` view, `raw` the raw
span, `raw_parsed` the parsed span, `raw_utf` the `utf_raw_content` view —
and any other name is an error; `content` and `raw_utf` read two distinct
fields, so they need not return the same span. -/
theorem textpart_get_content_dispatch (p : TextPart)
    (h : IS_PART_EMPTY p = false) :
    lua_textpart_get_content p (some "content") =
        Except.ok (some (gbaDeref p.content)) ∧
      lua_textpart_get_content p (some "content_oneline") =
        Except.ok (some (gbaDeref p.stripped_content)) ∧
      lua_textpart_get_content p (some "raw") = Except.ok (some p.raw) ∧
      lua_textpart_get_content p (some "raw_parsed") =
        Except.ok (some p.parsed) ∧
      lua_textpart_get_content p (some "raw_utf") =
        Except.ok (some (gbaDeref p.utf_raw_content)) ∧
      lua_textpart_get_content p none =
        Except.ok (some (gbaDeref p.content)) ∧
      ∀ t, t ∉ (["content", "content_oneline", "raw_parsed", "raw_utf",
          "raw"] : List String) →
        lua_textpart_get_content p (some t) =
          Except.error ("invalid content type: " ++ t) := by
  refine ⟨?_, ?_, ?_, ?_, ?_, ?_, fun t ht => ?_⟩ <;>
    simp_all [lua_textpart_get_content, h]

/-- Witness for C1 (amended) at the non-empty fixture part. -/
theorem textpart_get_content_dispatch_witness :
    lua_textpart_get_content tpPlain (some "raw_utf") =
      Except.ok (some (gbaDeref tpPlain.utf_raw_content)) :=
  (textpart_get_content_dispatch tpPlain rfl).2.2.2.2.1

/-- Counterexample for C1 as stated: on a non-empty part whose `content`
and `utf_raw_content` fields are different spans, the `content` and
`raw_utf` variants return different views. -/
theorem textpart_content_rawutf_alias_counterexample :
    IS_PART_EMPTY tpPlain = false ∧
      lua_textpart_get_content tpPlain (some "content") ≠
        lua_textpart_get_content tpPlain (some "raw_utf") := by
  refine ⟨rfl, ?_⟩
  decide

/-- C7: on a non-empty text part, a variant name outside the five recognized
ones is reported as a Lua error carrying the offending name — a result
distinct from the nil used for legitimate absence. -/
theorem textpart_get_content_invalid_variant (p : TextPart) (t : String)
    (hne : IS_PART_EMPTY p = false)
    (ht : t ∉ (["content", "content_oneline", "raw_parsed", "raw_utf",
        "raw"] : List String)) :
    lua_textpart_get_content p (some t) =
        Except.error ("invalid content type: " ++ t) ∧
      lua_textpart_get_content p (some t) ≠ Except.ok none := by
  have herr : lua_textpart_get_content p (some t) =
      Except.error ("invalid content type: " ++ t) := by
    simp_all [lua_textpart_get_content]
  exact ⟨herr, by rw [herr]; exact fun hc => Except.noConfusion hc⟩

/-- Witness for C7 at the non-empty fixture part and the variant name
`bogus`. -/
theorem textpart_get_content_invalid_variant_witness :
    lua_textpart_get_content tpPlain (some "bogus") =
      Except.error ("invalid content type: " ++ "bogus") :=
  (textpart_get_content_invalid_variant tpPlain "bogus" rfl (by decide)).1

/-- C4 (amended): `get_children()` returns nil whenever the part's content
type is not multipart or the child array is null, and otherwise returns the
child sequence exactly as stored — including a present-but-empty sequence
when the stored child array is empty. -/
theorem mimepart_get_children_spec (p : MimePart) :
    (IS_CT_MULTIPART p.ct = false ∨ p.children = none →
        lua_mimepart_get_children p = none) ∧
      ∀ cs, IS_CT_MULTIPART p.ct = true → p.children = some cs →
        lua_mimepart_get_children p = some cs := by
  constructor
  · intro h
    rcases h with h | h <;> simp [lua_mimepart_get_children, h]
  · intro cs hm hc
    simp [lua_mimepart_get_children, hm, hc]

/-- Witness for C4 (amended) at a non-multipart part with a stale child
array. -/
theorem mimepart_get_children_spec_witness :
    lua_mimepart_get_children mpNonMulti = none :=
  (mimepart_get_children_spec mpNonMulti).1 (Or.inl rfl)

/-- Counterexample for C4 as stated: a multipart part whose child array is
present but empty is reported with a present-but-empty child sequence, not
with nil. -/
theorem mimepart_children_present_empty_counterexample :
    IS_CT_MULTIPART mpMultiEmpty.ct = true ∧
      lua_mimepart_get_children mpMultiEmpty = some [] := by
  constructor <;> rfl

/-- C6: for every part, name filter and callback, the header traversal
visits records exactly in stored (insertion) order: the unfiltered walk is
the prefix of `headers_order` up to and including the first record on which
the callback signals stop, the filtered walk is the same over the records
whose names pass the filter, the walk is empty when the part has no headers,
and the visited records are a prefix of `headers_order`. -/
theorem mimepart_headers_foreach_spec (p : MimePart)
    (cb : MimeHeader → Bool) (f : String → Bool) :
    lua_mimepart_headers_foreach p none cb =
        foreachSpecVisits (p.headers_order.getD []) cb ∧
      lua_mimepart_headers_foreach p (some f) cb =
        foreachSpecVisits
          ((p.headers_order.getD []).filter (fun h => f h.name)) cb ∧
      (p.headers_order = none →
        lua_mimepart_headers_foreach p none cb = []) ∧
      lua_mimepart_headers_foreach p none cb <+: p.headers_order.getD [] := by
  have hnone : lua_mimepart_headers_foreach p none cb =
      foreachSpecVisits (p.headers_order.getD []) cb := by
    cases h : p.headers_order with
    | none => simp [lua_mimepart_headers_foreach, h, foreachSpecVisits]
    | some hs =>
      simp [lua_mimepart_headers_foreach, h, foreachLoop_none_eq]
  have hsome : lua_mimepart_headers_foreach p (some f) cb =
      foreachSpecVisits
        ((p.headers_order.getD []).filter (fun h => f h.name)) cb := by
    cases h : p.headers_order with
    | none => simp [lua_mimepart_headers_foreach, h, foreachSpecVisits]
    | some hs =>
      simp [lua_mimepart_headers_foreach, h, foreachLoop_filter,
        foreachLoop_none_eq]
  refine ⟨hnone, hsome, fun h => ?_, ?_⟩
  · simp [lua_mimepart_headers_foreach, h]
  · rw [hnone]
    exact foreachSpecVisits_prefix _ cb

/-- Witness for C6 at a part with no headers. -/
theorem mimepart_headers_foreach_spec_witness :
    lua_mimepart_headers_foreach mpNonMulti none (fun _ => false) = [] :=
  (mimepart_headers_foreach_spec mpNonMulti (fun _ => false)
    (fun _ => true)).2.2.1 rfl

/-- C8 (amended): for every part whose content type carries a non-empty
boundary, `get_type_full` pushes the boundary value under the key
`"charset"`, not under `"boundary"` — but the attribute loop that follows
pushes every attribute with a non-empty name under its own name.  So the
boundary value is what remains under the single key `"charset"`, with no
`"boundary"` key present, only when no attribute is itself named `charset`
or `boundary`; an attribute named `boundary` makes a `"boundary"` key
present after all. -/
theorem mimepart_type_full_boundary_as_charset (p : MimePart)
    (ct : ContentType) (hct : p.ct = some ct)
    (hb : ct.boundary.length > 0) :
    ((∀ a ∈ ct.attrs.getD [], a.name ≠ "charset" ∧ a.name ≠ "boundary") →
        tableGet (lua_mimepart_get_type_full p).2.2 "charset" =
            some ct.boundary ∧
          tableGet (lua_mimepart_get_type_full p).2.2 "boundary" = none) ∧
      ((∃ a ∈ ct.attrs.getD [], a.name = "boundary") →
        tableGet (lua_mimepart_get_type_full p).2.2 "boundary" ≠ none) := by
  have hattrsTable : (lua_mimepart_get_type_full p).2.2 = ctAttrsTable ct := by
    simp [lua_mimepart_get_type_full, hct, ctDeref]
  have ht2 :
      (if ct.boundary.length > 0 then
          tableSet
            (if ct.charset.length > 0 then
              tableSet ([] : List (String × String)) "charset" ct.charset
            else [])
            "charset" ct.boundary
        else
          if ct.charset.length > 0 then
            tableSet ([] : List (String × String)) "charset" ct.charset
          else []) = [("charset", ct.boundary)] := by
    rw [if_pos hb]
    by_cases hc : ct.charset.length > 0
    · rw [if_pos hc]
      simp [tableSet]
    · rw [if_neg hc]
      simp [tableSet]
  constructor
  · intro hattrs
    constructor
    · rw [hattrsTable, ctAttrsTable]
      rw [ctAttrsFold_preserve "charset" (ct.attrs.getD [])
        _ (fun a ha => (hattrs a ha).1)]
      simp only [ht2]
      simp [tableGet, List.find?]
    · rw [hattrsTable, ctAttrsTable]
      rw [ctAttrsFold_preserve "boundary" (ct.attrs.getD [])
        _ (fun a ha => (hattrs a ha).2)]
      simp only [ht2]
      simp [tableGet, List.find?]
  · rintro ⟨a, ha, hak⟩
    rw [hattrsTable, ctAttrsTable]
    apply ctAttrsFold_present
    refine Or.inr ⟨a, ha, hak, ?_⟩
    rw [hak]
    decide

/-- Witness for C8 (amended): the guarded conjunct at a content type whose
only attribute is unrelated, and the `"boundary"`-key conjunct at a content
type whose attribute list retains the boundary parameter. -/
theorem mimepart_type_full_boundary_as_charset_witness :
    (tableGet (lua_mimepart_get_type_full mpBound).2.2 "charset" =
          some ctBound.boundary ∧
        tableGet (lua_mimepart_get_type_full mpBound).2.2 "boundary" =
          none) ∧
      tableGet (lua_mimepart_get_type_full mpBoundAttrs).2.2 "boundary" ≠
        none :=
  ⟨(mimepart_type_full_boundary_as_charset mpBound ctBound rfl
      (by decide)).1 (by decide),
    (mimepart_type_full_boundary_as_charset mpBoundAttrs ctBoundAttrs rfl
      (by decide)).2 ⟨⟨"boundary", "XYZ"⟩, by decide, rfl⟩⟩

/-- Counterexample for C8 as stated: when the attribute list itself retains
the `boundary` and `charset` parameters — as a parser that keeps all
parameters produces — a `"boundary"` key is present and the value under
`"charset"` is not the boundary. -/
theorem mimepart_type_full_boundary_counterexample :
    ctBoundAttrs.boundary.length > 0 ∧
      tableGet (lua_mimepart_get_type_full mpBoundAttrs).2.2 "boundary" ≠
          none ∧
        tableGet (lua_mimepart_get_type_full mpBoundAttrs).2.2 "charset" ≠
          some ctBoundAttrs.boundary := by
  decide
